import Mathlib

/-!
# Verification of mortar-luigi: Pig-schema-to-Redshift translation and S3 transfer

A shallow embedding of the decision-making logic of `mortar/luigi/redshift.py`
and `mortar/luigi/s3transfer.py`, with theorems checking the repository's
specification against it.

Python strings are modelled as `List Char`; Python dict access and exception
control flow are made explicit with `Option` and `Except`.
-/

/-- Python exceptions surfaced by the embedded code.

* `keyError k` — Python `KeyError` raised by a dict subscript on a missing key
  (`k` is the missing key, or the string form of a missing type code).
* `unsupportedPigType c` — the translator's
  `Exception("Unsupported Pig type: %s" % f['type'])`; the carried `c` is the
  type-code value interpolated into the message.
* `nameError n` — Python `NameError` for an unbound bare identifier `n`.
* `attributeError recv attr` — Python `AttributeError`: value of kind `recv`
  has no attribute `attr`. -/
inductive PyExc where
  | keyError (key : String)
  | unsupportedPigType (code : Int)
  | nameError (name : String)
  | attributeError (recv attr : String)
  deriving Repr, DecidableEq

/-! ## String primitives used by the translator

`redshift.py` splits field names on the literal separator `"::"` and joins
segments with `"_"`.  We embed Python `str.split("::")`, `str.replace("::","_")`
and `"_".join(...)` as structurally recursive functions on `List Char`,
specialised to those literal arguments (the only ones the source uses). -/

/-- Python `s.split("::")`: split at leftmost non-overlapping occurrences of
`"::"`.  Never returns the empty list; `"".split("::") == ['']`. -/
def splitSS : List Char → List (List Char)
  | [] => [[]]
  | [c] => [[c]]
  | c1 :: c2 :: rest =>
    if c1 = ':' ∧ c2 = ':' then
      [] :: splitSS rest
    else
      match splitSS (c2 :: rest) with
      | [] => [[c1]]
      | s :: ss => (c1 :: s) :: ss

/-- Python `s.replace("::", "_")`: replace leftmost non-overlapping occurrences
of `"::"` by `"_"`. -/
def replaceSS : List Char → List Char
  | [] => []
  | [c] => [c]
  | c1 :: c2 :: rest =>
    if c1 = ':' ∧ c2 = ':' then '_' :: replaceSS rest
    else c1 :: replaceSS (c2 :: rest)

/-- Python `"_".join(parts)`. -/
def joinU : List (List Char) → List Char
  | [] => []
  | [s] => s
  | s :: s2 :: ss => s ++ '_' :: joinU (s2 :: ss)

/-- Python `s.split("_")` (used only to state spec property C8). -/
def splitU : List Char → List (List Char)
  | [] => [[]]
  | c :: cs =>
    if c = '_' then [] :: splitU cs
    else
      match splitU cs with
      | [] => [[c]]
      | s :: ss => (c :: s) :: ss

/-! ## redshift.py — the schema translator -/

/-- One entry of the `fields` list of a parsed `.pig_schema` JSON document: a
Python dict in which the keys `name` and `type` may each be present or absent
(`f['name']` / `f['type']` raise `KeyError` when absent).  Other keys of the
dict are never read by the code and are not modelled. -/
structure PigField where
  name : Option (List Char)
  type : Option Int
  deriving Repr, DecidableEq

/-- A parsed schema JSON document (the result of `json.loads(schema)` with its
`fields` list).  `json.loads` is a deterministic parse of the document string;
the claims under verification are all about the post-parse behaviour, so the
embedding starts from the parsed value. -/
structure SchemaDoc where
  fields : List PigField
  deriving Repr, DecidableEq

/-- The module-level dict `PIG_TYPE_TO_REDSHIFT_TYPE` of `redshift.py`,
embedded as the lookup mapping it denotes (`d[c]` succeeding exactly on the
dict's nine keys). -/
def PIG_TYPE_TO_REDSHIFT_TYPE : Int → Option String
  | 5 => some "boolean"
  | 10 => some "integer"
  | 15 => some "bigint"
  | 20 => some "float8"
  | 25 => some "float8"
  | 30 => some "timestamp"
  | 50 => some "varchar(max)"
  | 55 => some "varchar(max)"
  | 65 => some "bigint"
  | _ => none

/-- The column-name computation of `get_column_definitions_from_pig_schema`:

```python
split_name = f['name'].split("::")
name = "_".join( split_name[ -min(alias_depth+1, len(split_name)): ])
```

`alias_depth` is modelled as a `Nat` (every claim constrains it to be ≥ 0).
Since `split` never returns an empty list, `k = min(alias_depth+1, len) ≥ 1`,
and the Python slice `lst[-k:]` with `1 ≤ k ≤ len` is `drop (len - k)`. -/
def pigColumnName (alias_depth : Nat) (nm : List Char) : List Char :=
  let split_name := splitSS nm
  joinU (split_name.drop (split_name.length - min (alias_depth + 1) split_name.length))

/-- Restatement of the spec's wording for the column name, independent of the
implementation's negative-index slice: "take the last
`k = min(aliasDepth + 1, segmentCount)` segments, join with `_`", with "last
`k`" expressed through `reverse`/`take`. -/
def specColumnName (alias_depth : Nat) (nm : List Char) : List Char :=
  let segs := splitSS nm
  joinU ((segs.reverse.take (min (alias_depth + 1) segs.length)).reverse)

/-- The body of the `for f in fields:` loop of
`get_column_definitions_from_pig_schema`, one field at a time:

```python
try:
    split_name = f['name'].split("::")
    name = "_".join( split_name[ -min(alias_depth+1, len(split_name)): ])
    result.append( (name, PIG_TYPE_TO_REDSHIFT_TYPE[f['type']]) )
except KeyError:
    raise Exception("Unsupported Pig type: %s" % f['type'])
```

Any `KeyError` inside the `try` block — from `f['name']`, from `f['type']`, or
from the type-table subscript — lands in the one handler, which re-raises as
`Exception("Unsupported Pig type: %s" % f['type'])`; evaluating `f['type']`
inside the handler itself raises `KeyError('type')` when that key is absent. -/
def translateField (alias_depth : Nat) (f : PigField) : Except PyExc (List Char × String) :=
  let body : Except PyExc (List Char × String) :=
    match f.name with
    | none => .error (.keyError "name")
    | some nm =>
      match f.type with
      | none => .error (.keyError "type")
      | some code =>
        match PIG_TYPE_TO_REDSHIFT_TYPE code with
        | none => .error (.keyError (toString code))
        | some ty => .ok (pigColumnName alias_depth nm, ty)
  match body with
  | .error (.keyError _) =>
    match f.type with
    | none => .error (.keyError "type")
    | some code => .error (.unsupportedPigType code)
  | r => r

/-- `get_column_definitions_from_pig_schema(schema, alias_depth)` after
`json.loads`: translate each field in order, aborting the whole translation on
the first exception (the local `result` list of the Python loop is never
returned once a raise happens). -/
def get_column_definitions_from_pig_schema (alias_depth : Nat) :
    List PigField → Except PyExc (List (List Char × String))
  | [] => .ok []
  | f :: fs =>
    match translateField alias_depth f with
    | .error e => .error e
    | .ok col =>
      match get_column_definitions_from_pig_schema alias_depth fs with
      | .error e => .error e
      | .ok cols => .ok (col :: cols)

/-- `CopyPigOutputToRedshiftTask._set_columns` from a parsed schema document:
translate, then `redshift_schema += self.table_keys()` — the caller-supplied
key/constraint pairs are appended verbatim after the field columns. -/
def set_columns (doc : SchemaDoc) (alias_depth : Nat)
    (table_keys : List (List Char × String)) : Except PyExc (List (List Char × String)) :=
  match get_column_definitions_from_pig_schema alias_depth doc.fields with
  | .error e => .error e
  | .ok cols => .ok (cols ++ table_keys)

/-- `CopyPigOutputToRedshiftTask._read_schema_file`:

```python
if not s3Client.exists(self.s3_schema_path()):
    raise Exception("No schema file located at %s.  Can not set Redshift columns." % s3_schema_path)
```

`store` abstracts the S3 client: the (parsed) schema document held at each
path, `none` when the path does not exist.  When the path is missing, the
`raise` line evaluates the bare identifier `s3_schema_path` — which is not
bound in the method's scope (the attribute is `self.s3_schema_path`) — so the
run fails with `NameError: name 's3_schema_path' is not defined` while still
building the message; the location string never makes it into the error. -/
def read_schema_file (store : String → Option SchemaDoc) (s3_schema_path : String) :
    Except PyExc SchemaDoc :=
  match store s3_schema_path with
  | none => .error (.nameError "s3_schema_path")
  | some doc => .ok doc

/-- The full `_set_columns` pipeline of `CopyPigOutputToRedshiftTask`: read the
schema file from the store, then translate and append the table keys.  If the
read raises, translation is never attempted and no column list is produced. -/
def copy_pig_output_set_columns (store : String → Option SchemaDoc)
    (s3_schema_path : String) (alias_depth : Nat)
    (table_keys : List (List Char × String)) : Except PyExc (List (List Char × String)) :=
  match read_schema_file store s3_schema_path with
  | .error e => .error e
  | .ok doc => set_columns doc alias_depth table_keys

/-- A field whose type code is present but absent from the translation table
(the condition under which the dict subscript in the loop raises `KeyError`
with a well-formed field). -/
def isUnknownType (f : PigField) : Bool :=
  match f.type with
  | some c => (PIG_TYPE_TO_REDSHIFT_TYPE c).isNone
  | none => false

/-- The type code of the first field the translation table rejects, if any. -/
def firstUnknownCode (fields : List PigField) : Option Int :=
  match fields.find? isUnknownType with
  | some f => f.type
  | none => none

/-- A field descriptor that translates cleanly: the `name` key is present and
its type code is in the translation table. -/
def isValidField (f : PigField) : Bool :=
  f.name.isSome &&
    match f.type with
    | some c => (PIG_TYPE_TO_REDSHIFT_TYPE c).isSome
    | none => false

/-! ## s3transfer.py — the single-file transfer -/

/-- The part of the world a run of `S3TransferTask.run` can observe or change:
the bytes at the input target and at the output target (`none` = the file or
object does not exist). -/
structure TransferState where
  source : Option (List Char)
  dest : Option (List Char)
  deriving Repr, DecidableEq

/-- Environment oracle for the copy step (`open`/`read`/`write`/`close`):
either every call succeeds, or some call raises, in which case `leftover` is
whatever content the failed run has left at the destination by that point
(`none` if the failure hit before anything was written, `some p` if a partial
write `p` is on disk). -/
inductive CopyStep where
  | copyOk
  | copyFail (leftover : Option (List Char))
  deriving Repr, DecidableEq

/-- What a run of `S3TransferTask.run` returns to the host scheduler. -/
inductive RunOutcome where
  | ok
  | err (e : PyExc)
  deriving Repr, DecidableEq

/-- Result of one run: final state, outcome, and whether the source was
opened for reading at all. -/
structure RunResult where
  state : TransferState
  outcome : RunOutcome
  readSource : Bool
  deriving Repr, DecidableEq

/-- `S3TransferTask.run`:

```python
if not self.output()[0].exists():
    try:
        r = self.input_target().open('r')
        w = self.output_target().open('w')
        w.write(r.read())
        w.close()
    except:
        if self.output().exists(self.output_target().path):
            self.output().remove()
```

* destination exists → the whole body is skipped: nothing read, nothing
  written, normal return;
* destination absent, copy succeeds → destination now holds the source bytes;
* destination absent, copy raises (also when the source is missing, in which
  case `open('r')` raises before reading) → control enters the bare `except`;
  there `self.output()` is the *list* `[self.output_target()]`, and a Python
  list has no attribute `exists`, so the handler itself raises
  `AttributeError` before any `exists`/`remove` call: nothing is cleaned up,
  the destination keeps whatever the failed copy left there, and the
  `AttributeError` (replacing the original error) propagates to the caller. -/
def S3TransferTask.run (st : TransferState) (step : CopyStep) : RunResult :=
  if st.dest.isSome then
    ⟨st, .ok, false⟩
  else
    match step with
    | .copyOk =>
      match st.source with
      | some bytes => ⟨{ st with dest := some bytes }, .ok, true⟩
      | none => ⟨st, .err (.attributeError "list" "exists"), false⟩
    | .copyFail leftover =>
      ⟨{ st with dest := leftover }, .err (.attributeError "list" "exists"), true⟩

/-! ## Concrete inputs used by witnesses -/

/-- A small valid schema document: `{"fields": [{"name": "t2::t1::id",
"type": 10}, {"name": "amount", "type": 25}]}`. -/
def exampleDoc : SchemaDoc :=
  ⟨[⟨some "t2::t1::id".data, some 10⟩, ⟨some "amount".data, some 25⟩]⟩

/-! ## Helper lemmas -/

/-- `str.split` never produces an empty list of parts. -/
theorem splitSS_ne_nil (l : List Char) : splitSS l ≠ [] := by
  induction l using splitSS.induct with
  | case1 => simp [splitSS]
  | case2 c => simp [splitSS]
  | case3 c1 c2 rest h ih => simp [splitSS, h]
  | case4 c1 c2 rest h hnil ih =>
    unfold splitSS
    simp only [if_neg h, hnil]
    simp
  | case5 c1 c2 rest h s ss hs ih =>
    unfold splitSS
    simp only [if_neg h, hs]
    simp

theorem joinU_cons_cons (c : Char) (s : List Char) (ss : List (List Char)) :
    joinU ((c :: s) :: ss) = c :: joinU (s :: ss) := by
  cases ss with
  | nil => rfl
  | cons s2 ss' => simp [joinU]

/-- Joining the `"::"`-split of a string with `"_"` is the same as replacing
every (leftmost, non-overlapping) `"::"` by `"_"`. -/
theorem joinU_splitSS (l : List Char) : joinU (splitSS l) = replaceSS l := by
  induction l using splitSS.induct with
  | case1 => rfl
  | case2 c => rfl
  | case3 c1 c2 rest h ih =>
    unfold splitSS replaceSS
    simp only [if_pos h]
    match hs : splitSS rest, splitSS_ne_nil rest with
    | s :: ss, _ =>
      rw [hs] at ih
      simp [joinU, ← ih]
  | case4 c1 c2 rest h hnil ih =>
    exact absurd hnil (splitSS_ne_nil _)
  | case5 c1 c2 rest h s ss hs ih =>
    unfold splitSS replaceSS
    simp only [if_neg h, hs]
    rw [hs] at ih
    rw [joinU_cons_cons, ih]

/-- A run whose destination already exists returns immediately: state
untouched, success, source never opened. -/
theorem run_noop_of_dest_isSome (st : TransferState) (step : CopyStep)
    (h : st.dest.isSome) : S3TransferTask.run st step = ⟨st, .ok, false⟩ := by
  simp [S3TransferTask.run, h]

/-! ## Claim theorems -/

/-- C1: for every field name and every alias depth ≥ 0, the produced column
name is the `_`-join of the last `k = min(aliasDepth + 1, segmentCount)`
`::`-segments of the name; in particular `"table_2::table_1::my_alias"` at
alias depth 1 yields `"table_1_my_alias"`. -/
theorem column_name_is_join_of_last_min_segments (alias_depth : Nat) (nm : List Char) :
    pigColumnName alias_depth nm = specColumnName alias_depth nm ∧
    pigColumnName 1 "table_2::table_1::my_alias".data = "table_1_my_alias".data := by
  refine ⟨?_, by decide⟩
  simp only [pigColumnName, specColumnName]
  rw [← List.rtake_eq_reverse_take_reverse, List.rtake]

/-- C6 counterexample: the translation table is not limited to the eight codes
the claim lists — it also contains code 65 (mapped to `"bigint"`), so "no
other codes" fails at input 65. -/
theorem type_table_contains_code_65 :
    PIG_TYPE_TO_REDSHIFT_TYPE 65 = some "bigint" ∧
    (65 : Int) ∉ ([5, 10, 15, 20, 25, 30, 50, 55] : List Int) := by
  decide

/-- C6 (amended): the translation table consists exactly of the nine codes
5 → boolean, 10 → integer, 15 → bigint, 20 and 25 → float8, 30 → timestamp,
50 and 55 → varchar(max), and additionally 65 → bigint; no other code is
mapped. -/
theorem type_table_characterization (c : Int) (s : String) :
    PIG_TYPE_TO_REDSHIFT_TYPE c = some s ↔
      (c, s) ∈ ([(5, "boolean"), (10, "integer"), (15, "bigint"), (20, "float8"),
        (25, "float8"), (30, "timestamp"), (50, "varchar(max)"),
        (55, "varchar(max)"), (65, "bigint")] : List (Int × String)) := by
  unfold PIG_TYPE_TO_REDSHIFT_TYPE
  split <;> simp_all <;> exact eq_comm

/-- C8 counterexample: for the name `"table_2::table_1::my_alias"` at alias
depth 1 the translator returns `"table_1_my_alias"`, and splitting that by
`'_'` yields 4 parts, more than aliasDepth + 1 = 2 — the `_`-split does not
back-derive the original segments once a segment itself contains `'_'`. -/
theorem underscore_split_exceeds_alias_bound :
    pigColumnName 1 "table_2::table_1::my_alias".data = "table_1_my_alias".data ∧
    ¬ (splitU (pigColumnName 1 "table_2::table_1::my_alias".data)).length ≤ 1 + 1 := by
  decide

/-- C8 (amended): for all field names and aliasDepth ≥ 0, the returned column
name is the `_`-join of at most aliasDepth + 1 of the original `::`-segments
(the trailing ones), and whenever aliasDepth ≥ segmentCount - 1 the returned
column name is the full original field name with every `::` replaced by `_`. -/
theorem retained_segments_bounded_and_full_name_at_depth (alias_depth : Nat) (nm : List Char) :
    ((splitSS nm).drop
        ((splitSS nm).length - min (alias_depth + 1) (splitSS nm).length)).length
      ≤ alias_depth + 1 ∧
    ((splitSS nm).length - 1 ≤ alias_depth → pigColumnName alias_depth nm = replaceSS nm) := by
  constructor
  · simp only [List.length_drop]
    omega
  · intro h
    have hpos : 0 < (splitSS nm).length :=
      List.length_pos.mpr (splitSS_ne_nil nm)
    have hmin : min (alias_depth + 1) (splitSS nm).length = (splitSS nm).length := by
      omega
    simp only [pigColumnName, hmin, Nat.sub_self, List.drop_zero]
    exact joinU_splitSS nm

/-- C8 witness: the amended theorem at the concrete name `"a::b"` and alias
depth 5 (5 ≥ segmentCount - 1 = 1). -/
theorem retained_segments_bounded_witness :
    ((splitSS "a::b".data).drop
        ((splitSS "a::b".data).length - min (5 + 1) (splitSS "a::b".data).length)).length
      ≤ 5 + 1 ∧
    pigColumnName 5 "a::b".data = replaceSS "a::b".data :=
  ⟨(retained_segments_bounded_and_full_name_at_depth 5 "a::b".data).1,
   (retained_segments_bounded_and_full_name_at_depth 5 "a::b".data).2 (by decide)⟩

/-- C2: for every schema document whose fields all carry their `name` and
`type` keys, if some field's type code is absent from the translation table
then translation fails with the `Unsupported Pig type` error carrying the
first offending code, and no column list — not even a partial one — is ever
returned. -/
theorem gcd_error_of_firstUnknown (alias_depth : Nat) :
    ∀ (fields : List PigField) (c : Int),
      (∀ f ∈ fields, f.name.isSome ∧ f.type.isSome) →
      firstUnknownCode fields = some c →
      get_column_definitions_from_pig_schema alias_depth fields =
        .error (.unsupportedPigType c)
  | [], c, _hkeys, hfirst => by
    simp [firstUnknownCode, List.find?] at hfirst
  | f :: fs, c, hkeys, hfirst => by
    obtain ⟨hnm', hty⟩ := hkeys f (List.mem_cons_self f fs)
    obtain ⟨nm, hnm⟩ := Option.isSome_iff_exists.mp hnm'
    obtain ⟨c0, hc0⟩ := Option.isSome_iff_exists.mp hty
    by_cases hu : isUnknownType f = true
    · have hfind : (f :: fs).find? isUnknownType = some f :=
        List.find?_cons_of_pos fs hu
      have hc : c0 = c := by
        simp [firstUnknownCode, hfind, hc0] at hfirst
        exact hfirst
      have htbl : PIG_TYPE_TO_REDSHIFT_TYPE c0 = none := by
        simp [isUnknownType, hc0, Option.isNone_iff_eq_none] at hu
        exact hu
      subst hc
      simp [get_column_definitions_from_pig_schema, translateField, hnm, hc0, htbl]
    · have hfind : (f :: fs).find? isUnknownType = fs.find? isUnknownType :=
        List.find?_cons_of_neg fs (by simpa using hu)
      have hrest : firstUnknownCode fs = some c := by
        simpa [firstUnknownCode, hfind] using hfirst
      have htbl : ∃ ty, PIG_TYPE_TO_REDSHIFT_TYPE c0 = some ty := by
        simp [isUnknownType, hc0, Option.isNone_iff_eq_none] at hu
        exact Option.ne_none_iff_exists'.mp hu
      obtain ⟨ty, hty'⟩ := htbl
      have ihres := gcd_error_of_firstUnknown alias_depth fs c
        (fun f hf => hkeys f (List.mem_cons_of_mem _ hf)) hrest
      simp [get_column_definitions_from_pig_schema, translateField, hnm, hc0, hty', ihres]

/-- C2: for every schema document whose fields all carry their `name` and
`type` keys, if some field's type code is absent from the translation table
then translation fails with the `Unsupported Pig type` error carrying the
first offending code, and no column list — not even a partial one — is ever
returned. -/
theorem unknown_type_aborts_translation (alias_depth : Nat) (fields : List PigField) (c : Int)
    (hkeys : ∀ f ∈ fields, f.name.isSome ∧ f.type.isSome)
    (hfirst : firstUnknownCode fields = some c) :
    get_column_definitions_from_pig_schema alias_depth fields =
        .error (.unsupportedPigType c) ∧
    ∀ cols, get_column_definitions_from_pig_schema alias_depth fields ≠ .ok cols := by
  have hmain := gcd_error_of_firstUnknown alias_depth fields c hkeys hfirst
  exact ⟨hmain, fun cols hok => by rw [hmain] at hok; exact Except.noConfusion hok⟩

theorem translateField_ok_of_valid (alias_depth : Nat) (f : PigField)
    (h : isValidField f = true) :
    ∃ nm ty, f.name = some nm ∧
      translateField alias_depth f = .ok (pigColumnName alias_depth nm, ty) := by
  obtain ⟨hnm', hty'⟩ := Bool.and_eq_true_iff.mp (by simpa [isValidField] using h)
  obtain ⟨nm, hnm⟩ := Option.isSome_iff_exists.mp hnm'
  match hc0 : f.type with
  | none => rw [hc0] at hty'; simp at hty'
  | some c0 =>
    rw [hc0] at hty'
    obtain ⟨ty, htbl⟩ := Option.isSome_iff_exists.mp hty'
    exact ⟨nm, ty, hnm, by simp [translateField, hnm, hc0, htbl]⟩

theorem gcd_ok_of_valid (alias_depth : Nat) :
    ∀ fields : List PigField,
      (∀ f ∈ fields, isValidField f = true) →
      ∃ cols, get_column_definitions_from_pig_schema alias_depth fields = .ok cols ∧
        cols.length = fields.length ∧
        ∀ i (hi : i < fields.length) (hc : i < cols.length),
          translateField alias_depth (fields.get ⟨i, hi⟩) = .ok (cols.get ⟨i, hc⟩)
  | [], _hvalid => ⟨[], rfl, rfl, fun i hi _ => absurd hi (Nat.not_lt_zero i)⟩
  | f :: fs, hvalid => by
    obtain ⟨nm, ty, _hnm, hok⟩ :=
      translateField_ok_of_valid alias_depth f (hvalid f (List.mem_cons_self f fs))
    obtain ⟨cols, hcols, hlen, hidx⟩ :=
      gcd_ok_of_valid alias_depth fs (fun f hf => hvalid f (List.mem_cons_of_mem _ hf))
    refine ⟨(pigColumnName alias_depth nm, ty) :: cols, ?_, by simp [hlen], ?_⟩
    · simp [get_column_definitions_from_pig_schema, hok, hcols]
    · intro i hi hc
      match i with
      | 0 => simpa using hok
      | i + 1 =>
        exact hidx i (Nat.lt_of_succ_lt_succ hi) (Nat.lt_of_succ_lt_succ hc)

/-- C2 witness: a two-field document whose second field's code 999 is unknown;
translation aborts with `Unsupported Pig type: 999`. -/
theorem unknown_type_aborts_translation_witness :
    get_column_definitions_from_pig_schema 1
        [⟨some "id".data, some 10⟩, ⟨some "x".data, some 999⟩] =
      .error (.unsupportedPigType 999) ∧
    ∀ cols, get_column_definitions_from_pig_schema 1
        [⟨some "id".data, some 10⟩, ⟨some "x".data, some 999⟩] ≠ .ok cols :=
  unknown_type_aborts_translation 1
    [⟨some "id".data, some 10⟩, ⟨some "x".data, some 999⟩] 999
    (by decide) (by decide)

/-- C5: for every schema document whose fields all translate (name key present,
type code known) and every list of extra key pairs, translation succeeds; the
column list keeps the input field order (the i-th column is the translation of
the i-th field), has exactly one column per field, and `_set_columns` appends
the extra key pairs verbatim at the end, for a total length of
fieldCount + extraKeyCount. -/
theorem translation_preserves_order_and_appends_keys (doc : SchemaDoc) (alias_depth : Nat)
    (table_keys : List (List Char × String))
    (hvalid : ∀ f ∈ doc.fields, isValidField f = true) :
    ∃ cols, get_column_definitions_from_pig_schema alias_depth doc.fields = .ok cols ∧
      cols.length = doc.fields.length ∧
      (∀ i (hi : i < doc.fields.length) (hc : i < cols.length),
        translateField alias_depth (doc.fields.get ⟨i, hi⟩) = .ok (cols.get ⟨i, hc⟩)) ∧
      set_columns doc alias_depth table_keys = .ok (cols ++ table_keys) ∧
      (cols ++ table_keys).length = doc.fields.length + table_keys.length := by
  obtain ⟨cols, hcols, hlen, hidx⟩ := gcd_ok_of_valid alias_depth doc.fields hvalid
  exact ⟨cols, hcols, hlen, hidx, by simp [set_columns, hcols], by simp [hlen]⟩

/-- C5 witness: the example document with two fields and one extra key pair. -/
theorem translation_preserves_order_witness :
    ∃ cols, get_column_definitions_from_pig_schema 1 exampleDoc.fields = .ok cols ∧
      cols.length = exampleDoc.fields.length ∧
      (∀ i (hi : i < exampleDoc.fields.length) (hc : i < cols.length),
        translateField 1 (exampleDoc.fields.get ⟨i, hi⟩) = .ok (cols.get ⟨i, hc⟩)) ∧
      set_columns exampleDoc 1 [("PRIMARY KEY".data, "(id)")] =
        .ok (cols ++ [("PRIMARY KEY".data, "(id)")]) ∧
      (cols ++ [("PRIMARY KEY".data, "(id)")]).length =
        exampleDoc.fields.length + 1 :=
  translation_preserves_order_and_appends_keys exampleDoc 1
    [("PRIMARY KEY".data, "(id)")] (by decide)

/-- C9: the schema translator is deterministic — equal (parsed) schema
documents and equal alias depths give equal results; the embedding is a pure
function of exactly these two inputs, with no other state read or written. -/
theorem translator_deterministic (s1 s2 : SchemaDoc) (d1 d2 : Nat)
    (h1 : s1 = s2) (h2 : d1 = d2) :
    get_column_definitions_from_pig_schema d1 s1.fields =
      get_column_definitions_from_pig_schema d2 s2.fields := by
  subst h1; subst h2; rfl

/-- C9 witness: determinism at the concrete example document. -/
theorem translator_deterministic_witness :
    get_column_definitions_from_pig_schema 1 exampleDoc.fields =
      get_column_definitions_from_pig_schema 1 exampleDoc.fields :=
  translator_deterministic exampleDoc exampleDoc 1 1 rfl rfl

/-- C10: a field that lacks the `name` key but has a type code that *is* in
the translation table does not surface as a malformed-schema error: the
`KeyError` from `f['name']` is caught by the same handler that reports unknown
type codes, so translation fails with `Unsupported Pig type` naming that valid
code (here stated for the first field at which translation fails; earlier
fields all translate cleanly). -/
theorem missing_name_reported_as_unsupported_type (alias_depth : Nat)
    (pre rest : List PigField) (f0 : PigField) (c : Int)
    (hpre : ∀ f ∈ pre, isValidField f = true)
    (hname : f0.name = none) (htype : f0.type = some c)
    (_htbl : (PIG_TYPE_TO_REDSHIFT_TYPE c).isSome) :
    get_column_definitions_from_pig_schema alias_depth (pre ++ f0 :: rest) =
      .error (.unsupportedPigType c) := by
  induction pre with
  | nil =>
    simp [get_column_definitions_from_pig_schema, translateField, hname, htype]
  | cons f fs ih =>
    obtain ⟨nm, ty, _hnm, hok⟩ :=
      translateField_ok_of_valid alias_depth f (hpre f (List.mem_cons_self f fs))
    have ihres := ih (fun f hf => hpre f (List.mem_cons_of_mem _ hf))
    simp [get_column_definitions_from_pig_schema, hok, ihres]

/-- C10 witness: a valid field followed by a nameless field of valid code 10;
translation reports `Unsupported Pig type: 10`. -/
theorem missing_name_reported_witness :
    get_column_definitions_from_pig_schema 1
        ([⟨some "id".data, some 10⟩] ++ ⟨none, some 10⟩ :: []) =
      .error (.unsupportedPigType 10) :=
  missing_name_reported_as_unsupported_type 1 [⟨some "id".data, some 10⟩] []
    ⟨none, some 10⟩ 10 (by decide) rfl rfl (by decide)

/-- C3 (code behaviour at the failing input): destination absent, source
`"ab"`, copy fails after writing the partial content `"a"`.  The except
handler calls `.exists` on the *list* returned by `output()`, which raises
`AttributeError` before any cleanup: the run ends with the partial `"a"`
still present at the destination, and the surfaced error is the handler's
`AttributeError`, not the original copy failure — contradicting "after a
failed run the destination is absent". -/
theorem failed_copy_leaves_partial_destination :
    S3TransferTask.run ⟨some "ab".data, none⟩ (.copyFail (some "a".data)) =
      ⟨⟨some "ab".data, some "a".data⟩, .err (.attributeError "list" "exists"), true⟩ ∧
    (S3TransferTask.run ⟨some "ab".data, none⟩ (.copyFail (some "a".data))).state.dest ≠
      none := by
  decide

/-- C4: a run whose destination already exists is a terminal no-op success —
the state (including the destination bytes) is unchanged and the source is
never opened; consequently, after a successful copy run, a second run against
the same destination is a no-op. -/
theorem existing_destination_run_is_noop (st st2 : TransferState)
    (step step2 : CopyStep) (b src : List Char)
    (h : st.dest = some b) (h2 : st2.dest = none) (h3 : st2.source = some src) :
    S3TransferTask.run st step = ⟨st, .ok, false⟩ ∧
    S3TransferTask.run (S3TransferTask.run st2 .copyOk).state step2 =
      ⟨(S3TransferTask.run st2 .copyOk).state, .ok, false⟩ := by
  constructor
  · exact run_noop_of_dest_isSome st step (by simp [h])
  · have hfirst : S3TransferTask.run st2 .copyOk =
        ⟨{ st2 with dest := some src }, .ok, true⟩ := by
      simp [S3TransferTask.run, h2, h3]
    exact run_noop_of_dest_isSome _ step2 (by simp [hfirst])

/-- C4 witness: a destination already holding `"x"` is untouched by any run,
and a second run after a successful copy of `"ab"` is a no-op. -/
theorem existing_destination_run_is_noop_witness :
    S3TransferTask.run ⟨some "ab".data, some "x".data⟩ .copyOk =
      ⟨⟨some "ab".data, some "x".data⟩, .ok, false⟩ ∧
    S3TransferTask.run (S3TransferTask.run ⟨some "ab".data, none⟩ .copyOk).state .copyOk =
      ⟨(S3TransferTask.run ⟨some "ab".data, none⟩ .copyOk).state, .ok, false⟩ :=
  existing_destination_run_is_noop ⟨some "ab".data, some "x".data⟩
    ⟨some "ab".data, none⟩ .copyOk .copyOk "x".data "ab".data rfl rfl rfl

/-- C7 (code behaviour when the schema location is missing): for *every* store
in which the schema path does not exist, `_set_columns` fails before any
translation is attempted and no column list is produced — but the surfaced
error is `NameError: name 's3_schema_path' is not defined` (the raise line
references the bare undefined identifier), the same error for every path, so
the error does not name the missing location as the claim requires. -/
theorem missing_schema_location_raises_name_error (store : String → Option SchemaDoc)
    (s3_schema_path : String) (alias_depth : Nat) (table_keys : List (List Char × String))
    (h : store s3_schema_path = none) :
    copy_pig_output_set_columns store s3_schema_path alias_depth table_keys =
      .error (.nameError "s3_schema_path") := by
  simp [copy_pig_output_set_columns, read_schema_file, h]

/-- C7 witness: an empty store and a concrete path. -/
theorem missing_schema_location_witness :
    copy_pig_output_set_columns (fun _ => none) "s3://bucket/out/.pig_schema" 1 [] =
      .error (.nameError "s3_schema_path") :=
  missing_schema_location_raises_name_error (fun _ => none)
    "s3://bucket/out/.pig_schema" 1 [] rfl
